import Mathlib

/-!
Verification of `typed` (runtime contract-checking engine) against its
natural-language specification.

The development shallowly embeds the code of `src/typed/mods/helper.py`:
Python runtime values become the inductive type `Val`, Python `==` becomes
`pyEq`, Python classes used as type descriptors become `PyType`, and the
helper functions `_get_type_display_name`, `_check_domain`, `_check_codomain`,
`_builtin_nulls`, `_get_null_object`, `_is_null_of_type` and
`_is_domain_hinted` become the Lean functions of the same (snake-case) names.
Descriptor-factory classes (`Union`, `Prod`, `Dict`, `Filter`, ...) live in
files of the repository that are not under `src/`; where a claim needs them
they are modelled from the spec and marked `Modelled from the spec:`.
-/

/-- A Python runtime value, restricted to the builtin kinds that the helper
module manipulates: ints, floats (modelled as exact rationals), bools,
strings, `None`, lists, tuples, sets, frozensets and dicts. -/
inductive Val where
  | vInt (n : Int)
  | vFloat (q : Rat)
  | vBool (b : Bool)
  | vStr (s : String)
  | vNone
  | vList (xs : List Val)
  | vTuple (xs : List Val)
  | vSet (xs : List Val)
  | vFrozenset (xs : List Val)
  | vDict (ps : List (Val × Val))

mutual

/-- Python `==` on `Val`.  Numbers compare by numeric value across
`int`/`float`/`bool` (so `False == 0` and `0.0 == 0` hold, as in Python);
lists and tuples compare pointwise, sets and frozensets by mutual
membership, dicts by size plus per-entry matching. -/
def pyEq : Val → Val → Bool
  | .vInt a, .vInt b => a == b
  | .vInt a, .vFloat b => decide ((a : Rat) = b)
  | .vInt a, .vBool b => a == (if b then 1 else 0)
  | .vFloat a, .vInt b => decide (a = (b : Rat))
  | .vFloat a, .vFloat b => a == b
  | .vFloat a, .vBool b => decide (a = (if b then (1 : Rat) else 0))
  | .vBool a, .vInt b => (if a then (1 : Int) else 0) == b
  | .vBool a, .vFloat b => decide ((if a then (1 : Rat) else 0) = b)
  | .vBool a, .vBool b => a == b
  | .vStr a, .vStr b => a == b
  | .vNone, .vNone => true
  | .vList xs, .vList ys => pyEqList xs ys
  | .vTuple xs, .vTuple ys => pyEqList xs ys
  | .vSet xs, .vSet ys => pySetEq xs ys
  | .vSet xs, .vFrozenset ys => pySetEq xs ys
  | .vFrozenset xs, .vSet ys => pySetEq xs ys
  | .vFrozenset xs, .vFrozenset ys => pySetEq xs ys
  | .vDict xs, .vDict ys => pyDictEq xs ys
  | _, _ => false
termination_by a b => sizeOf a + sizeOf b

/-- Pointwise Python equality of two sequences. -/
def pyEqList : List Val → List Val → Bool
  | [], [] => true
  | x :: xs, y :: ys => pyEq x y && pyEqList xs ys
  | _, _ => false
termination_by xs ys => sizeOf xs + sizeOf ys

/-- Python membership (by `==`) of a value in a list of values. -/
def pyMem : Val → List Val → Bool
  | _, [] => false
  | x, y :: ys => pyEq x y || pyMem x ys
termination_by x ys => sizeOf x + sizeOf ys

/-- Every element of the first list is `pyEq` to some element of the second. -/
def pySubset : List Val → List Val → Bool
  | [], _ => true
  | x :: xs, ys => pyMem x ys && pySubset xs ys
termination_by xs ys => sizeOf xs + sizeOf ys

/-- Python set equality: mutual containment. -/
def pySetEq (xs ys : List Val) : Bool :=
  pySubset xs ys && pySubset ys xs
termination_by sizeOf xs + sizeOf ys + 1

/-- A key/value pair occurs (by `==` on both components) in an entry list. -/
def pyPairMem : Val → Val → List (Val × Val) → Bool
  | _, _, [] => false
  | k, v, (k2, v2) :: ps => (pyEq k k2 && pyEq v v2) || pyPairMem k v ps
termination_by k v ps => sizeOf k + sizeOf v + sizeOf ps

/-- Every entry of the first dict occurs in the second. -/
def pyPairsSub : List (Val × Val) → List (Val × Val) → Bool
  | [], _ => true
  | (k, v) :: ps, qs => pyPairMem k v qs && pyPairsSub ps qs
termination_by ps qs => sizeOf ps + sizeOf qs

/-- Python dict equality: same size and every entry of one matched in the other. -/
def pyDictEq (xs ys : List (Val × Val)) : Bool :=
  xs.length == ys.length && pyPairsSub xs ys
termination_by sizeOf xs + sizeOf ys + 1

end

lemma pyEqList_refl_of (xs : List Val) (h : ∀ x ∈ xs, pyEq x x = true) :
    pyEqList xs xs = true := by
  induction xs with
  | nil => simp [pyEqList]
  | cons a t ih =>
      simp only [pyEqList, Bool.and_eq_true]
      exact ⟨h a (by simp), ih fun x hx => h x (by simp [hx])⟩

lemma pyMem_of_mem {x : Val} {bs : List Val} (hx : pyEq x x = true) (h : x ∈ bs) :
    pyMem x bs = true := by
  induction bs with
  | nil => cases h
  | cons b t ih =>
      rcases List.mem_cons.mp h with rfl | hm
      · simp [pyMem, hx]
      · simp [pyMem, ih hm]

lemma pySubset_of_forall {as bs : List Val} (h : ∀ x ∈ as, pyMem x bs = true) :
    pySubset as bs = true := by
  induction as with
  | nil => simp [pySubset]
  | cons a t ih =>
      simp only [pySubset, Bool.and_eq_true]
      exact ⟨h a (by simp), ih fun x hx => h x (by simp [hx])⟩

lemma pySetEq_refl_of (xs : List Val) (h : ∀ x ∈ xs, pyEq x x = true) :
    pySetEq xs xs = true := by
  simp only [pySetEq, Bool.and_eq_true]
  constructor <;> exact pySubset_of_forall fun x hx => pyMem_of_mem (h x hx) hx

lemma pyPairMem_of_mem {k v : Val} {bs : List (Val × Val)}
    (hk : pyEq k k = true) (hv : pyEq v v = true) (h : (k, v) ∈ bs) :
    pyPairMem k v bs = true := by
  induction bs with
  | nil => cases h
  | cons b t ih =>
      obtain ⟨k2, v2⟩ := b
      rcases List.mem_cons.mp h with he | hm
      · obtain ⟨rfl, rfl⟩ := Prod.mk.injEq .. ▸ he
        simp [pyPairMem, hk, hv]
      · simp [pyPairMem, ih hm]

lemma pyPairsSub_of_forall {as bs : List (Val × Val)}
    (h : ∀ p ∈ as, pyPairMem p.1 p.2 bs = true) :
    pyPairsSub as bs = true := by
  induction as with
  | nil => simp [pyPairsSub]
  | cons a t ih =>
      obtain ⟨k, v⟩ := a
      simp only [pyPairsSub, Bool.and_eq_true]
      exact ⟨h (k, v) (by simp), ih fun p hp => h p (by simp [hp])⟩

lemma pyDictEq_refl_of (ps : List (Val × Val))
    (h : ∀ p ∈ ps, pyEq p.1 p.1 = true ∧ pyEq p.2 p.2 = true) :
    pyDictEq ps ps = true := by
  simp only [pyDictEq, Bool.and_eq_true, beq_self_eq_true, true_and]
  exact pyPairsSub_of_forall fun p hp => pyPairMem_of_mem (h p hp).1 (h p hp).2 hp

/-- Python `==` is reflexive on our value model. -/
theorem pyEq_refl : ∀ v : Val, pyEq v v = true
  | .vInt n => by simp [pyEq]
  | .vFloat q => by simp [pyEq]
  | .vBool b => by cases b <;> simp [pyEq]
  | .vStr s => by simp [pyEq]
  | .vNone => by simp [pyEq]
  | .vList xs => by
      have : ∀ x ∈ xs, pyEq x x = true := fun x hx =>
        have : sizeOf x < sizeOf xs := List.sizeOf_lt_of_mem hx
        pyEq_refl x
      simpa [pyEq] using pyEqList_refl_of xs this
  | .vTuple xs => by
      have : ∀ x ∈ xs, pyEq x x = true := fun x hx =>
        have : sizeOf x < sizeOf xs := List.sizeOf_lt_of_mem hx
        pyEq_refl x
      simpa [pyEq] using pyEqList_refl_of xs this
  | .vSet xs => by
      have : ∀ x ∈ xs, pyEq x x = true := fun x hx =>
        have : sizeOf x < sizeOf xs := List.sizeOf_lt_of_mem hx
        pyEq_refl x
      simpa [pyEq] using pySetEq_refl_of xs this
  | .vFrozenset xs => by
      have : ∀ x ∈ xs, pyEq x x = true := fun x hx =>
        have : sizeOf x < sizeOf xs := List.sizeOf_lt_of_mem hx
        pyEq_refl x
      simpa [pyEq] using pySetEq_refl_of xs this
  | .vDict ps => by
      have : ∀ p ∈ ps, pyEq p.1 p.1 = true ∧ pyEq p.2 p.2 = true := fun p hp =>
        have hps : sizeOf p < sizeOf ps := List.sizeOf_lt_of_mem hp
        have h1 : sizeOf p.1 < sizeOf ps := by
          obtain ⟨a, b⟩ := p; simp at hps ⊢; omega
        have h2 : sizeOf p.2 < sizeOf ps := by
          obtain ⟨a, b⟩ := p; simp at hps ⊢; omega
        ⟨pyEq_refl p.1, pyEq_refl p.2⟩
      simpa [pyEq] using pyDictEq_refl_of ps this
termination_by v => sizeOf v
decreasing_by all_goals (simp_wf; omega)

/-- Tag naming a builtin Python class as it appears in a class's `__bases__`
tuple (`object` for classes with no interesting base; `attrBase` for the
always-accepting base class `Attr__` produced by `Attr` in
`src/typed/mods/types/attr.py`, whose metaclass `__instancecheck__` returns
`True` when no required attributes are set). -/
inductive BTag where
  | intB | floatB | strB | boolB | noneB
  | listB | tupleB | setB | dictB | frozensetB
  | objB | attrBaseB
deriving DecidableEq

/-- The runtime class (as a tag) of a value: Python's `type(x)`. -/
def rtype : Val → BTag
  | .vInt _ => .intB
  | .vFloat _ => .floatB
  | .vBool _ => .boolB
  | .vStr _ => .strB
  | .vNone => .noneB
  | .vList _ => .listB
  | .vTuple _ => .tupleB
  | .vSet _ => .setB
  | .vFrozenset _ => .frozensetB
  | .vDict _ => .dictB

/-- Python `isinstance(v, C)` where `C` is the builtin class named by the
tag: nominal, except that `bool` is a subclass of `int`, everything is an
instance of `object`, and the bare `Attr__` base accepts everything. -/
def instTag (v : Val) : BTag → Bool
  | .objB => true
  | .attrBaseB => true
  | .intB => rtype v == .intB || rtype v == .boolB
  | t => rtype v == t

/-- A Python class as the helper module probes it: its `__name__`, its
optional `__display__` attribute, the tags of its `__bases__` tuple, its
optional `__types__` tuple of constituent classes (`hasTypes` models
`hasattr(typ, '__types__')`), its optional `check` refinement predicate
(`hasattr(typ, 'check')`), and its `isinstance` behaviour `inst` (the
metaclass `__instancecheck__`, or the default nominal test). Class identity
(Python `is` / dict-key lookup on classes) is modelled by `name`, unique
per class in this closed universe. -/
inductive PyType where
  | mk (name : String) (display : Option String) (bases : List BTag)
       (hasTypes : Bool) (types : List PyType)
       (check : Option (Val → Bool)) (inst : Val → Bool)

def PyType.name : PyType → String
  | .mk n _ _ _ _ _ _ => n

def PyType.display : PyType → Option String
  | .mk _ d _ _ _ _ _ => d

def PyType.bases : PyType → List BTag
  | .mk _ _ b _ _ _ _ => b

def PyType.hasTypes : PyType → Bool
  | .mk _ _ _ h _ _ _ => h

def PyType.types : PyType → List PyType
  | .mk _ _ _ _ t _ _ => t

def PyType.check : PyType → Option (Val → Bool)
  | .mk _ _ _ _ _ c _ => c

def PyType.inst : PyType → Val → Bool
  | .mk _ _ _ _ _ _ i => i

/-- `_get_type_display_name` (helper.py lines 104-111): the `__display__`
attribute if present; else the capitalized name for `int`/`float`/`str`/
`bool`; else `"Nill"` for `NoneType`; else the function falls off the end
and returns Python `None`, modelled as `none`. -/
def get_type_display_name (tp : PyType) : Option String :=
  match tp.display with
  | some d => some d
  | none =>
      let n := tp.name
      if n == "int" || n == "float" || n == "str" || n == "bool" then
        some n.capitalize
      else if n == "NoneType" then some "Nill"
      else none

/- The builtin Python classes, as `PyType` values of the model. -/

def pyIntC : PyType := .mk "int" none [.objB] false [] none (fun v => instTag v .intB)
def pyFloatC : PyType := .mk "float" none [.objB] false [] none (fun v => instTag v .floatB)
def pyStrC : PyType := .mk "str" none [.objB] false [] none (fun v => instTag v .strB)
def pyBoolC : PyType := .mk "bool" none [.intB] false [] none (fun v => instTag v .boolB)
def pyNoneC : PyType := .mk "NoneType" none [.objB] false [] none (fun v => instTag v .noneB)
def pyListC : PyType := .mk "list" none [.objB] false [] none (fun v => instTag v .listB)
def pyTupleC : PyType := .mk "tuple" none [.objB] false [] none (fun v => instTag v .tupleB)
def pySetC : PyType := .mk "set" none [.objB] false [] none (fun v => instTag v .setB)
def pyFrozensetC : PyType := .mk "frozenset" none [.objB] false [] none (fun v => instTag v .frozensetB)
def pyDictC : PyType := .mk "dict" none [.objB] false [] none (fun v => instTag v .dictB)

/-- The runtime class of a value as a `PyType`: Python's `type(x)` for the
values of our model. -/
def runtimeClass (v : Val) : PyType :=
  match rtype v with
  | .intB => pyIntC
  | .floatB => pyFloatC
  | .strB => pyStrC
  | .boolB => pyBoolC
  | .noneB => pyNoneC
  | .listB => pyListC
  | .tupleB => pyTupleC
  | .setB => pySetC
  | .frozensetB => pyFrozensetC
  | .dictB => pyDictC
  | .objB => pyNoneC
  | .attrBaseB => pyNoneC

/-- `_get_type_display_name(type(value))`, the `actual_display_name` the
checkers compute for a value. -/
def runtimeDisplay (v : Val) : Option String :=
  get_type_display_name (runtimeClass v)

/-- Whether a descriptor's refinement accepts a value: `t.check(value)` when
the class has a `check` attribute, vacuously true otherwise. -/
def refOk (t : PyType) (v : Val) : Bool :=
  match t.check with
  | some c => c v
  | none => true

/-- Full membership of a value in a (non-union) descriptor as the spec
defines `isMember`: the nominal test together with the refinement test. -/
def fullyAccepts (t : PyType) (v : Val) : Bool :=
  t.inst v && refOk t v

/-- One entry of the aggregated report built by `_check_domain`
(helper.py lines 113-149), keeping exactly the fields interpolated into the
corresponding message block:
* `nominalRec` (lines 124-127 and 136-139): parameter name, value, expected
  and received display names;
* `unionCheckRec` (lines 131-134, a nominally matching union constituent
  whose own `check` fails): parameter name, value, received display name and
  the failing constituent's display name;
* `plainCheckRec` (lines 143-145, a non-union descriptor whose `check`
  fails): value, expected and received display names — the source appends
  no parameter-name line in this branch. -/
inductive Mismatch where
  | nominalRec (param : String) (value : Val) (expected received : Option String)
  | unionCheckRec (param : String) (value : Val) (received failed : Option String)
  | plainCheckRec (value : Val) (expected received : Option String)

/-- The parameter name carried by a violation record, if any. -/
def mismatchParam : Mismatch → Option String
  | .nominalRec p _ _ _ => some p
  | .unionCheckRec p _ _ _ => some p
  | .plainCheckRec _ _ _ => none

/-- The records `_check_domain` appends for one parameter (the body of the
loop at helper.py lines 115-145).  If the expected class has a `__types__`
tuple it is treated as a union: no nominal match at all yields one nominal
record, otherwise every nominally matching constituent whose own `check`
rejects the value yields a record.  Otherwise the plain nominal test runs,
followed by the class's own `check` if present. -/
def paramMismatches (name : String) (t : PyType) (v : Val) : List Mismatch :=
  if t.hasTypes then
    if !(t.types.any fun c => c.inst v) then
      [.nominalRec name v (get_type_display_name t) (runtimeDisplay v)]
    else
      (t.types.filter fun c => c.inst v && !(refOk c v)).map
        fun c => .unionCheckRec name v (runtimeDisplay v) (get_type_display_name c)
  else if !(t.inst v) then
    [.nominalRec name v (get_type_display_name t) (runtimeDisplay v)]
  else
    match t.check with
    | some c =>
        if c v then []
        else [.plainCheckRec v (get_type_display_name t) (runtimeDisplay v)]
    | none => []

/-- `_check_domain` (helper.py lines 113-149): scan `zip(param_names,
expected_domain)`, fetching each value as `args[param_names.index(name)]`,
and collect all mismatch records; the function raises one aggregated
`TypeError` at the end iff the returned list is non-empty. -/
def check_domain (param_names : List String) (expected_domain : List PyType)
    (args : List Val) : List Mismatch :=
  ((param_names.zip expected_domain).map
    fun p => paramMismatches p.1 p.2 (args.getD (param_names.indexOf p.1) .vNone)).flatten

/-- The single error `_check_codomain` can raise (helper.py lines 152-211),
with the data interpolated into the corresponding message:
* `unionCheckFail` (lines 166-173): result value, expected display, received
  display, and the matched constituent's display;
* `unionNoMatch` (lines 176-182): result value, the display names of all
  union constituents, and the received display;
* `nameErrorRaised`: in the nominal branch (lines 187-195) the failure
  message interpolates `_get_type_display_name(t)`, but no variable `t` is
  in scope there — the `for t` loop lives in the union branch that was not
  taken — so evaluating the message raises `UnboundLocalError`/`NameError`
  for the named variable instead of the intended `TypeError`;
* `nominalFail` (lines 198-203): result value, expected and received
  display names. -/
inductive CoErr where
  | unionCheckFail (result : Val) (expected received failed : Option String)
  | unionNoMatch (result : Val) (expectedUnion : List (Option String)) (received : Option String)
  | nameErrorRaised (varName : String)
  | nominalFail (result : Val) (expected received : Option String)

/-- `actual_codomain is expected_codomain`: identity of the result's runtime
class with the expected class, modelled by name. -/
def runtimeIs (v : Val) (t : PyType) : Bool :=
  (runtimeClass v).name == t.name

/-- `_check_codomain` (helper.py lines 152-211).  Returns the raised error,
or `none` when the check passes.  The guard `expected_codomain is TypedAny_`
is modelled by the class name `"Any"` (class identity is name identity in
this universe); the `inspect.Signature.empty` guard and the final
non-class `else` branch (line 204) have no counterpart because every
descriptor of the model is a class. -/
def check_codomain (expected : PyType) (result : Val)
    (allow_subclass : Bool := true) : Option CoErr :=
  if expected.name == "Any" then none
  else
    let expectedDisp := get_type_display_name expected
    let receivedDisp := runtimeDisplay result
    if expected.hasTypes then
      if expected.types.any fun c => c.inst result then
        match expected.types.find? fun c => c.inst result && !(refOk c result) with
        | some c =>
            some (.unionCheckFail result expectedDisp receivedDisp
              (get_type_display_name c))
        | none => none
      else
        some (.unionNoMatch result (expected.types.map get_type_display_name)
          receivedDisp)
    else
      if expected.inst result then
        if allow_subclass || runtimeIs result expected then
          match expected.check with
          | some c => if c result then none else some (.nameErrorRaised "t")
          | none => none
        else some (.nominalFail result expectedDisp receivedDisp)
      else some (.nominalFail result expectedDisp receivedDisp)

/-- Python `s.startswith(p)`, computed on the underlying character lists. -/
def pyStartsWith (s p : String) : Bool :=
  p.toList.isPrefixOf s.toList

/-- `_builtin_nulls` (helper.py lines 219-236) as a lookup keyed on class
identity, here class name: the `Dict`/`Tuple`/`List`/`Set` factory classes
and their builtin counterparts map to empty containers, scalars to their
zero values. -/
def builtinNull : String → Option Val
  | "Dict" => some (.vDict [])
  | "dict" => some (.vDict [])
  | "Tuple" => some (.vTuple [])
  | "tuple" => some (.vTuple [])
  | "List" => some (.vList [])
  | "list" => some (.vList [])
  | "Set" => some (.vSet [])
  | "set" => some (.vSet [])
  | "frozenset" => some (.vFrozenset [])
  | "str" => some (.vStr "")
  | "int" => some (.vInt 0)
  | "float" => some (.vFloat 0)
  | "bool" => some (.vBool false)
  | "NoneType" => some .vNone
  | _ => none

mutual

/-- `_get_null_object` (helper.py lines 238-277).  Every class has
`__bases__`, so the body always runs: the four container probes on
`__bases__` come first (a typed list/set holds the null of its first
`__types__` entry; a tuple-based class named `Prod...` maps its `__types__`
pointwise, any other tuple-based class gives `()`; a dict-based class picks
the key placeholder — and the entry value — from `__types__[0]`); otherwise
the `_builtin_nulls` lookup applies, and a class matching nothing yields
Python `None`.  This function gives the value of the executions that return
normally; the set branch's `return {elem_null}` (line 257) raises a
`TypeError` in Python when the element null is unhashable, and that raising
path is modelled separately by `gnoRaises` below. -/
def get_null_object (t : PyType) : Val :=
  match t with
  | .mk name _ bases hasT ts _ _ =>
    if bases.contains .listB then
      if hasT then
        match ts with
        | e :: _ => .vList [get_null_object e]
        | [] => .vList []
      else .vList []
    else if bases.contains .tupleB then
      if hasT then
        match ts with
        | e :: rest =>
            if pyStartsWith name "Prod" then .vTuple (gnoList (e :: rest))
            else .vTuple []
        | [] => .vTuple []
      else .vTuple []
    else if bases.contains .setB then
      if hasT then
        match ts with
        | e :: _ => .vSet [get_null_object e]
        | [] => .vSet []
      else .vSet []
    else if bases.contains .dictB then
      if hasT then
        match ts with
        | vt :: _ =>
            let vnull := get_null_object vt
            if vt.name == "str" then .vDict [(.vStr "", vnull)]
            else if vt.name == "int" then .vDict [(.vInt 0, vnull)]
            else if vt.name == "float" then .vDict [(.vFloat 0, vnull)]
            else .vDict [(.vNone, vnull)]
        | [] => .vDict []
      else .vDict []
    else
      match builtinNull name with
      | some v => v
      | none => .vNone
termination_by sizeOf t

/-- `tuple(_get_null_object(t) for t in typ.__types__)` (helper.py line 250). -/
def gnoList : List PyType → List Val
  | [] => []
  | t :: ts => get_null_object t :: gnoList ts
termination_by ts => sizeOf ts

end

/-- `_is_null_of_type` (helper.py lines 279-286): for a class found among
the `_builtin_nulls` keys, plain value equality with the canonical null;
otherwise (every class has `__bases__`) value equality with the derived
null object together with `isinstance(x, typ.__bases__[0])`.  The trailing
`return x == null` of the source is unreachable for classes.  `__bases__[0]`
on an empty `__bases__` (only the class `object`) is modelled by the
`object` tag default. -/
def is_null_of_type (x : Val) (t : PyType) : Bool :=
  match builtinNull t.name with
  | some v => pyEq x v
  | none => pyEq x (get_null_object t) && instTag x (t.bases.headD .objB)

/-- `_is_domain_hinted` (helper.py lines 36-53): a callable's parameters as
(name, optional domain hint) pairs; no parameters passes vacuously,
otherwise the names of the un-hinted parameters are collected and a
`TypeError` naming them is raised if any exist. -/
def is_domain_hinted (params : List (String × Option PyType)) :
    Except (List String) Bool :=
  if params.isEmpty then .ok true
  else
    let non_hinted := (params.filter fun p => p.2.isNone).map fun p => p.1
    if non_hinted.isEmpty then .ok true else .error non_hinted

/-- `true` iff `_is_domain_hinted` returns rather than raising. -/
def hintedOk (params : List (String × Option PyType)) : Bool :=
  match is_domain_hinted params with
  | .ok _ => true
  | .error _ => false

/-- Modelled from the spec: the `Union` factory of
`typed.mods.factories.base` (not under `src/`).  Per §4.1, a union
descriptor holds its constituents (probed by the helpers as the `__types__`
tuple) and is a member-of-at-least-one-constituent class with no global
refinement of its own. -/
def UnionT (d1 d2 : PyType) : PyType :=
  .mk "Union" none [.objB] true [d1, d2] none (fun v => d1.inst v || d2.inst v)

/-- Modelled from the spec: the `Prod` factory of
`typed.mods.factories.base` (not under `src/`): a fixed-arity tuple-based
class (its name starts with `Prod`, as `_get_null_object` line 249 probes)
carrying the per-position descriptors as `__types__`. -/
def ProdT (ts : List PyType) : PyType :=
  .mk "Prod" none [.tupleB] true ts none (fun v => instTag v .tupleB)

/-- Modelled from the spec: the `Dict` factory of
`typed.mods.factories.base` (not under `src/`), called as
`Dict(keyDescriptor, valueDescriptor)` (cf. `Dict(Str, Any)` in
`src/typed/mods/types/other.py`): a dict-based class whose `__types__`
lists the key descriptor then the value descriptor. -/
def DictT (k v : PyType) : PyType :=
  .mk "DictOf" none [.dictB] true [k, v] none (fun w => instTag w .dictB)

/-- Modelled from the spec: the `List` element-parametrized container
factory of `typed.mods.factories.base` (not under `src/`): a list-based
class carrying its element descriptor as `__types__`. -/
def ListT (e : PyType) : PyType :=
  .mk "ListOf" none [.listB] true [e] none (fun w => instTag w .listB)

/-- Modelled from the spec: the `Set` element-parametrized container
factory of `typed.mods.factories.base` (not under `src/`). -/
def SetT (e : PyType) : PyType :=
  .mk "SetOf" none [.setB] true [e] none (fun w => instTag w .setB)

/-- Positivity predicate on values, the refinement of the library's `Pos`
descriptor. -/
def isPositiveInt : Val → Bool
  | .vInt n => decide (0 < n)
  | _ => false

/-- Modelled from the spec: the `Filter` factory of
`typed.mods.factories.generics` (not under `src/`) applied as
`Filter(Int, positive)` (the library's `Pos` in
`src/typed/mods/types/other.py` line 32): nominal base `int`, own `check`
refinement, display name `"Pos"`. -/
def pyPos : PyType :=
  .mk "Pos" (some "Pos") [.intB] false [] (some isPositiveInt)
    (fun v => instTag v .intB)

/-- A user-defined class with no `__display__` attribute and no instances
among our values. -/
def pyUserC : PyType := .mk "MyClass" none [.objB] false [] none (fun _ => false)

/-- Acceptance of one argument by one declared descriptor, as `_check_domain`
decides it: for a `__types__`-carrying (union) class, some constituent must
match nominally and every nominally matching constituent's own `check` must
pass; for a plain class, the nominal test then the refinement. -/
def descAccepts (t : PyType) (v : Val) : Bool :=
  if t.hasTypes then
    (t.types.any fun c => c.inst v) && (t.types.all fun c => !(c.inst v) || refOk c v)
  else
    fullyAccepts t v

lemma gnoList_eq_map : ∀ ts : List PyType, gnoList ts = ts.map get_null_object
  | [] => by simp [gnoList]
  | t :: ts => by simp [gnoList, gnoList_eq_map ts]

/-- C6: `nullOf` of a fixed-arity product descriptor with per-position
descriptors `(E1..En)` is the tuple `(nullOf(E1), ..., nullOf(En))`; in
particular the three-element product over (integer, text, boolean) yields
`(0, "", false)`. -/
theorem C6_prod_null :
    (∀ (t : PyType) (ts : List PyType),
      get_null_object (ProdT (t :: ts)) = .vTuple ((t :: ts).map get_null_object)) ∧
    get_null_object (ProdT [pyIntC, pyStrC, pyBoolC]) =
      .vTuple [.vInt 0, .vStr "", .vBool false] := by
  constructor
  · intro t ts
    simp [ProdT, get_null_object, gnoList_eq_map]
    decide
  · simp [ProdT, get_null_object, gnoList, pyIntC, pyStrC, pyBoolC, builtinNull]
    decide

/-- C7: when the declared codomain is a union and the result matches no
constituent nominally, `_check_codomain` raises a single `CodomainViolation`
whose expected set lists the display names of all constituents. -/
theorem C7_union_codomain_no_match (D1 D2 : PyType) (r : Val)
    (h1 : D1.inst r = false) (h2 : D2.inst r = false) :
    check_codomain (UnionT D1 D2) r =
      some (.unionNoMatch r [get_type_display_name D1, get_type_display_name D2]
        (runtimeDisplay r)) := by
  simp [check_codomain, UnionT, PyType.name, PyType.hasTypes, PyType.types, h1, h2]

/-- Witness for C7: a codomain declared as `Union(int, str)` rejects the
floating-point result `2.5` with a violation naming both `"Int"` and
`"Str"` as the expected set. -/
theorem C7_union_codomain_no_match_witness :
    pyIntC.inst (.vFloat (5 / 2)) = false ∧ pyStrC.inst (.vFloat (5 / 2)) = false ∧
    check_codomain (UnionT pyIntC pyStrC) (.vFloat (5 / 2)) =
      some (.unionNoMatch (.vFloat (5 / 2)) [some "Int", some "Str"] (some "Float")) := by
  refine ⟨by decide, by decide, ?_⟩
  rw [C7_union_codomain_no_match pyIntC pyStrC (.vFloat (5 / 2)) (by decide) (by decide)]
  rfl

/-- C8: `_is_domain_hinted` fails iff the callable has at least one
parameter and some parameter lacks a domain hint; a callable with zero
parameters always passes. -/
theorem C8_unannotated_signature (params : List (String × Option PyType)) :
    (hintedOk params = false ↔ params ≠ [] ∧ ∃ p ∈ params, p.2 = none) ∧
    is_domain_hinted ([] : List (String × Option PyType)) = .ok true := by
  constructor
  · unfold hintedOk is_domain_hinted
    cases params with
    | nil => simp
    | cons a l =>
        simp only [List.isEmpty_cons, Bool.false_eq_true, if_false]
        rcases hf : (a :: l).filter (fun p => p.2.isNone) with _ | ⟨b, t⟩
        · simp only [hf, List.map_nil, List.isEmpty_nil, if_true]
          constructor
          · intro hc; cases hc
          · rintro ⟨-, p, hp, hnone⟩
            have hmem : p ∈ (a :: l).filter fun p => p.2.isNone :=
              List.mem_filter.mpr ⟨hp, by simp [hnone]⟩
            rw [hf] at hmem; cases hmem
        · simp only [hf, List.map_cons, List.isEmpty_cons, Bool.false_eq_true, if_false]
          have hmem : b ∈ (a :: l).filter fun p => p.2.isNone := by
            rw [hf]; exact List.mem_cons_self b t
          have hb := List.mem_filter.mp hmem
          exact ⟨fun _ => ⟨by simp, b, hb.1, Option.isNone_iff_eq_none.mp hb.2⟩,
            fun _ => trivial⟩
  · rfl

/-- C9: for a builtin scalar descriptor, `_is_null_of_type` tests only value
equality with the canonical null, not the runtime kind of the value: both
`False` and `0.0` are classified as the null of the `int` descriptor. -/
theorem C9_null_by_value_equality :
    (∀ x : Val, is_null_of_type x pyIntC = pyEq x (.vInt 0)) ∧
    is_null_of_type (.vBool false) pyIntC = true ∧
    is_null_of_type (.vFloat 0) pyIntC = true := by
  refine ⟨fun x => rfl, ?_, ?_⟩
  · show pyEq (.vBool false) (.vInt 0) = true
    simp [pyEq]
  · show pyEq (.vFloat 0) (.vInt 0) = true
    norm_num [pyEq]

/-- C10: `_get_type_display_name` produces a string exactly for classes
carrying `__display__` or named `int`, `float`, `str`, `bool`, `NoneType`;
other classes — `list`, `dict`, a user class without `__display__` — get
the absence marker. -/
theorem C10_display_name_absent :
    (∀ t : PyType, (get_type_display_name t).isSome =
      (t.display.isSome || (t.name == "int" || t.name == "float" ||
        t.name == "str" || t.name == "bool" || t.name == "NoneType"))) ∧
    get_type_display_name pyListC = none ∧
    get_type_display_name pyDictC = none ∧
    get_type_display_name pyUserC = none := by
  refine ⟨fun t => ?_, by decide, by decide, by decide⟩
  rcases hd : t.display with _ | d
  · simp only [get_type_display_name, hd, Option.isSome_none, Bool.false_or]
    cases h1 : t.name == "int" <;> cases h2 : t.name == "float" <;>
      cases h3 : t.name == "str" <;> cases h4 : t.name == "bool" <;>
      cases h5 : t.name == "NoneType" <;>
      simp [h1, h2, h3, h4, h5]
  · simp [get_type_display_name, hd]

/-- C4 (code bug): for a nominal codomain whose nominal test passes but
whose refinement rejects the result, `_check_codomain` does not raise the
intended `CodomainViolation`: building the message evaluates
`_get_type_display_name(t)` with the variable `t` unbound (helper.py line
194 — the `for t` loop lives only in the union branch), so the call dies
with a `NameError`/`UnboundLocalError` instead. -/
theorem C4_codomain_refinement_nameerror :
    pyPos.inst (.vInt 0) = true ∧ refOk pyPos (.vInt 0) = false ∧
    check_codomain pyPos (.vInt 0) = some (.nameErrorRaised "t") := by
  refine ⟨by decide, by decide, ?_⟩
  rfl

/-- C5 (code bug): `_get_null_object` on a typed dictionary descriptor
`Dict(Str, Int)` derives both the key placeholder and the entry value from
`__types__[0]` (helper.py lines 262-271), producing `{"": ""}` — not the
`{"": 0}` the spec requires (key placeholder from the key's kind, value
`nullOf` of the value descriptor). -/
theorem C5_dict_null_uses_key_type_for_value :
    get_null_object (DictT pyStrC pyIntC) = .vDict [(.vStr "", .vStr "")] ∧
    get_null_object (DictT pyStrC pyIntC) ≠ .vDict [(.vStr "", .vInt 0)] := by
  have h : get_null_object (DictT pyStrC pyIntC) = .vDict [(.vStr "", .vStr "")] := by
    simp [DictT, get_null_object, pyStrC, pyIntC, PyType.name, builtinNull]
  exact ⟨h, by rw [h]; simp⟩

lemma UnionT_hasTypes (d1 d2 : PyType) : (UnionT d1 d2).hasTypes = true := rfl

lemma UnionT_types (d1 d2 : PyType) : (UnionT d1 d2).types = [d1, d2] := rfl

lemma UnionT_name (d1 d2 : PyType) : (UnionT d1 d2).name = "Union" := rfl

/-- C1 counterexample: for the union `Union(int, Pos)` and the argument
`-5`, the constituent `int` fully accepts the value, yet both the domain
check and the codomain check reject it — the union loop also consults the
other nominally matching constituent `Pos`, whose refinement fails.  This
refutes `isMember(Union(D1,D2), x) == isMember(D1,x) or isMember(D2,x)`. -/
theorem C1_union_short_circuit_counterexample :
    fullyAccepts pyIntC (.vInt (-5)) = true ∧
    (check_domain ["x"] [UnionT pyIntC pyPos] [.vInt (-5)]).isEmpty = false ∧
    (check_codomain (UnionT pyIntC pyPos) (.vInt (-5))).isSome = true := by
  decide

/-- C1 amended: a union argument or result is accepted iff some constituent
matches nominally AND every nominally matching constituent's own refinement
accepts the value; this characterization (hence acceptance) is independent
of the order in which the two constituents are supplied, for both the
domain check and the codomain check. -/
theorem C1_union_membership_amended (D1 D2 : PyType) (x : Val) :
    ((check_domain ["x"] [UnionT D1 D2] [x]).isEmpty =
      ((D1.inst x || D2.inst x) &&
        ((!D1.inst x || refOk D1 x) && (!D2.inst x || refOk D2 x)))) ∧
    ((check_codomain (UnionT D1 D2) x).isNone =
      ((D1.inst x || D2.inst x) &&
        ((!D1.inst x || refOk D1 x) && (!D2.inst x || refOk D2 x)))) ∧
    ((check_domain ["x"] [UnionT D1 D2] [x]).isEmpty =
      (check_domain ["x"] [UnionT D2 D1] [x]).isEmpty) ∧
    ((check_codomain (UnionT D1 D2) x).isNone =
      (check_codomain (UnionT D2 D1) x).isNone) := by
  have key : ∀ A B : PyType,
      ((check_domain ["x"] [UnionT A B] [x]).isEmpty =
        ((A.inst x || B.inst x) &&
          ((!A.inst x || refOk A x) && (!B.inst x || refOk B x)))) ∧
      ((check_codomain (UnionT A B) x).isNone =
        ((A.inst x || B.inst x) &&
          ((!A.inst x || refOk A x) && (!B.inst x || refOk B x)))) := by
    intro A B
    have hn : (("Union" : String) == "Any") = false := by decide
    constructor
    · cases hA : A.inst x <;> cases hB : B.inst x <;>
        cases hrA : refOk A x <;> cases hrB : refOk B x <;>
        simp [check_domain, paramMismatches, UnionT_hasTypes, UnionT_types,
          hA, hB, hrA, hrB, List.filter_cons]
    · cases hA : A.inst x <;> cases hB : B.inst x <;>
        cases hrA : refOk A x <;> cases hrB : refOk B x <;>
        simp [check_codomain, UnionT_hasTypes, UnionT_types, UnionT_name, hn,
          hA, hB, hrA, hrB, List.find?]
  have hsym : ∀ a b ra rb : Bool,
      ((a || b) && ((!a || ra) && (!b || rb))) =
        ((b || a) && ((!b || rb) && (!a || ra))) := by decide
  refine ⟨(key D1 D2).1, (key D1 D2).2, ?_, ?_⟩
  · exact ((key D1 D2).1.trans (hsym ..)).trans (key D2 D1).1.symm
  · exact ((key D1 D2).2.trans (hsym ..)).trans (key D2 D1).2.symm

lemma check_domain_cons (n : String) (t : PyType) (v : Val) (ns : List String)
    (ts : List PyType) (vs : List Val) (hn : n ∉ ns) :
    check_domain (n :: ns) (t :: ts) (v :: vs) =
      paramMismatches n t v ++ check_domain ns ts vs := by
  unfold check_domain
  simp only [List.zip_cons_cons, List.map_cons, List.flatten_cons]
  congr 1
  · simp [List.indexOf_cons_self]
  · congr 1
    apply List.map_congr_left
    intro p hp
    have hmem : p.1 ∈ ns := by
      obtain ⟨a, b⟩ := p
      exact (List.of_mem_zip hp).1
    have hne : n ≠ p.1 := fun h => hn (h ▸ hmem)
    rw [List.indexOf_cons_ne _ hne]
    simp [List.getD_cons_succ]

lemma paramMismatches_nil_iff (n : String) (t : PyType) (v : Val) :
    paramMismatches n t v = [] ↔ descAccepts t v = true := by
  unfold paramMismatches descAccepts fullyAccepts
  cases ht : t.hasTypes
  · simp only [Bool.false_eq_true, if_false]
    cases hi : t.inst v
    · simp [hi]
    · cases hc : t.check with
      | none => simp [refOk, hi, hc]
      | some c => cases hcv : c v <;> simp [refOk, hi, hc, hcv]
  · simp only [if_true]
    cases hany : t.types.any (fun c => c.inst v)
    · simp [hany]
    · simp only [hany, Bool.not_true, Bool.false_eq_true, if_false, Bool.true_and]
      rw [List.map_eq_nil_iff, List.filter_eq_nil_iff]
      simp only [List.all_eq_true, Bool.and_eq_true]
      constructor
      · intro h c hcmem
        have hco := h c hcmem
        cases hci : c.inst v
        · simp [hci]
        · cases hrc : refOk c v
          · exact absurd ⟨hci, by rw [hrc]; rfl⟩ hco
          · simp [hci, hrc]
      · intro h c hcmem hpair
        obtain ⟨hci, hrc⟩ := hpair
        have hor := h c hcmem
        rw [hci] at hor
        simp only [Bool.not_true, Bool.false_or] at hor
        rw [hor] at hrc
        cases hrc

/-- C2 counterexample: in a call with two simultaneously invalid arguments
(`a = "x"` fails the `int` nominal test, `b = -1` nominally matches `Pos`
but fails its refinement), a single aggregated report with two records is
produced, yet the record for `b` carries no parameter name — refuting
"names every failing parameter". -/
theorem C2_missing_param_name_counterexample :
    fullyAccepts pyIntC (.vStr "x") = false ∧
    fullyAccepts pyPos (.vInt (-1)) = false ∧
    (check_domain ["a", "b"] [pyIntC, pyPos] [.vStr "x", .vInt (-1)]).length = 2 ∧
    (check_domain ["a", "b"] [pyIntC, pyPos] [.vStr "x", .vInt (-1)]).map mismatchParam
      = [some "a", none] := by
  decide

/-- C2 amended: `_check_domain` scans every declared parameter and raises at
most one aggregated violation: the report is the in-order concatenation of
each parameter's records, it is empty exactly when every parameter's record
list is empty, a parameter's record list is empty exactly when its argument
is accepted, and every record carries the parameter name except those from
a non-union refinement failure, which omit it. -/
theorem C2_domain_aggregation_amended (call : List (String × PyType × Val))
    (hnd : (call.map fun c => c.1).Nodup) :
    (check_domain (call.map fun c => c.1) (call.map fun c => c.2.1)
        (call.map fun c => c.2.2)
      = (call.map fun c => paramMismatches c.1 c.2.1 c.2.2).flatten) ∧
    ((check_domain (call.map fun c => c.1) (call.map fun c => c.2.1)
        (call.map fun c => c.2.2)).isEmpty = true ↔
      ∀ c ∈ call, paramMismatches c.1 c.2.1 c.2.2 = []) ∧
    (∀ (nm : String) (t : PyType) (v : Val),
      paramMismatches nm t v = [] ↔ descAccepts t v = true) ∧
    (∀ (nm : String) (t : PyType) (v : Val) (m : Mismatch),
      m ∈ paramMismatches nm t v →
        mismatchParam m = some nm ∨ ∃ val e r, m = .plainCheckRec val e r) := by
  have hmain : check_domain (call.map fun c => c.1) (call.map fun c => c.2.1)
      (call.map fun c => c.2.2)
      = (call.map fun c => paramMismatches c.1 c.2.1 c.2.2).flatten := by
    revert hnd
    induction call with
    | nil => intro _; rfl
    | cons c cs ih =>
        intro hnd
        simp only [List.map_cons] at hnd ⊢
        obtain ⟨hhead, htail⟩ := List.nodup_cons.mp hnd
        rw [check_domain_cons _ _ _ _ _ _ hhead, List.flatten_cons, ih htail]
  refine ⟨hmain, ?_, paramMismatches_nil_iff, ?_⟩
  · rw [hmain]
    rw [List.isEmpty_iff, List.flatten_eq_nil_iff]
    constructor
    · intro h c hc
      exact h _ (List.mem_map_of_mem _ hc)
    · intro h l hl
      obtain ⟨c, hc, rfl⟩ := List.mem_map.mp hl
      exact h c hc
  · intro nm t v m hm
    unfold paramMismatches at hm
    cases ht : t.hasTypes
    · rw [ht] at hm
      simp only [Bool.false_eq_true, if_false] at hm
      cases hi : t.inst v
      · rw [hi] at hm
        simp only [Bool.not_false, if_true, List.mem_singleton] at hm
        subst hm; exact .inl rfl
      · rw [hi] at hm
        simp only [Bool.not_true, Bool.false_eq_true, if_false] at hm
        cases hc : t.check with
        | none => rw [hc] at hm; simp at hm
        | some c =>
            rw [hc] at hm
            cases hcv : c v
            · simp only [hcv, Bool.false_eq_true, if_false, List.mem_singleton] at hm
              subst hm
              exact .inr ⟨v, get_type_display_name t, runtimeDisplay v, rfl⟩
            · simp only [hcv, if_true, List.not_mem_nil] at hm
    · rw [ht] at hm
      simp only [if_true] at hm
      cases hany : t.types.any (fun c => c.inst v)
      · rw [hany] at hm
        simp only [Bool.not_false, if_true, List.mem_singleton] at hm
        subst hm; exact .inl rfl
      · rw [hany] at hm
        simp only [Bool.not_true, Bool.false_eq_true, if_false] at hm
        obtain ⟨c, _, rfl⟩ := List.mem_map.mp hm
        exact .inl rfl

/-- Witness for C2 amended, at the two-failing-argument call of the
counterexample. -/
theorem C2_domain_aggregation_amended_witness :
    (((["a", "b"] : List String)).Nodup) ∧
    check_domain ["a", "b"] [pyIntC, pyPos] [.vStr "x", .vInt (-1)]
      = ([("a", pyIntC, .vStr "x"), ("b", pyPos, .vInt (-1))].map
          fun c => paramMismatches c.1 c.2.1 c.2.2).flatten :=
  ⟨by decide,
    (C2_domain_aggregation_amended
      [("a", pyIntC, .vStr "x"), ("b", pyPos, .vInt (-1))] (by decide)).1⟩

mutual

/-- Python hashability of a value: lists, sets and dicts are unhashable, a
tuple is hashable iff all its components are, everything else (including
frozensets, whose members are hashable by construction) is hashable. -/
def pyHashable : Val → Bool
  | .vList _ => false
  | .vSet _ => false
  | .vDict _ => false
  | .vTuple xs => pyHashableList xs
  | _ => true
termination_by v => sizeOf v

def pyHashableList : List Val → Bool
  | [] => true
  | x :: xs => pyHashable x && pyHashableList xs
termination_by xs => sizeOf xs

end

mutual

/-- The executions of `_get_null_object` that raise instead of returning:
the set branch's `return {elem_null}` (helper.py line 257) raises
`TypeError: unhashable type` when the element null is unhashable (e.g.
`Set(List(Int))`, whose element null is the list `[0]`), and a raise in a
recursive call propagates.  All other branches only build lists, tuples and
dicts with hashable keys, which never raise. -/
def gnoRaises : PyType → Bool
  | .mk name _ bases hasT ts _ _ =>
    if bases.contains .listB then
      if hasT then
        match ts with
        | e :: _ => gnoRaises e
        | [] => false
      else false
    else if bases.contains .tupleB then
      if hasT then
        match ts with
        | e :: rest =>
            if pyStartsWith name "Prod" then gnoRaisesList (e :: rest) else false
        | [] => false
      else false
    else if bases.contains .setB then
      if hasT then
        match ts with
        | e :: _ => gnoRaises e || !(pyHashable (get_null_object e))
        | [] => false
      else false
    else if bases.contains .dictB then
      if hasT then
        match ts with
        | vt :: _ => gnoRaises vt
        | [] => false
      else false
    else false
termination_by t => sizeOf t

/-- A raise in any position of `tuple(_get_null_object(t) for t in ...)`. -/
def gnoRaisesList : List PyType → Bool
  | [] => false
  | t :: ts => gnoRaises t || gnoRaisesList ts
termination_by ts => sizeOf ts

end

/-- The first container class found in a `__bases__` tuple, in the probe
order of `_get_null_object` (list, tuple, set, dict). -/
def containerTagOf (bases : List BTag) : Option BTag :=
  if bases.contains .listB then some .listB
  else if bases.contains .tupleB then some .tupleB
  else if bases.contains .setB then some .setB
  else if bases.contains .dictB then some .dictB
  else none

/-- Descriptor shapes for which the null round-trip holds, and for which the
null derivation returns normally (`gnoRaises` is false): a container-based
class whose first base is its container kind and whose name is not a
`_builtin_nulls` key, a class that is itself a `_builtin_nulls` key with no
container base, or a class whose first base accepts everything — the
`object` base (as in the modelled union classes) or the always-accepting
`Attr__` base of structural classes. -/
def goodNullShape (t : PyType) : Bool :=
  (match containerTagOf t.bases with
    | some c => (builtinNull t.name).isNone && (t.bases.headD .objB == c)
    | none =>
        (builtinNull t.name).isSome || t.bases.headD .objB == .attrBaseB ||
          t.bases.headD .objB == .objB) &&
  !(gnoRaises t)

lemma rtype_gno_list {name : String} {disp : Option String} {bases : List BTag}
    {hasT : Bool} {ts : List PyType} {chk : Option (Val → Bool)} {ins : Val → Bool}
    (hl : bases.contains .listB = true) :
    rtype (get_null_object (.mk name disp bases hasT ts chk ins)) = .listB := by
  rw [get_null_object.eq_def]
  simp only [hl, if_true]
  cases hasT
  · simp [rtype]
  · cases ts <;> simp [rtype]

lemma rtype_gno_tuple {name : String} {disp : Option String} {bases : List BTag}
    {hasT : Bool} {ts : List PyType} {chk : Option (Val → Bool)} {ins : Val → Bool}
    (h1 : bases.contains .listB = false) (h2 : bases.contains .tupleB = true) :
    rtype (get_null_object (.mk name disp bases hasT ts chk ins)) = .tupleB := by
  rw [get_null_object.eq_def]
  simp only [h1, h2, Bool.false_eq_true, if_false, if_true]
  cases hasT
  · simp [rtype]
  · cases ts with
    | nil => simp [rtype]
    | cons e rest =>
        cases hp : pyStartsWith name "Prod" <;> simp [hp, rtype]

lemma rtype_gno_set {name : String} {disp : Option String} {bases : List BTag}
    {hasT : Bool} {ts : List PyType} {chk : Option (Val → Bool)} {ins : Val → Bool}
    (h1 : bases.contains .listB = false) (h2 : bases.contains .tupleB = false)
    (h3 : bases.contains .setB = true) :
    rtype (get_null_object (.mk name disp bases hasT ts chk ins)) = .setB := by
  rw [get_null_object.eq_def]
  simp only [h1, h2, h3, Bool.false_eq_true, if_false, if_true]
  cases hasT
  · simp [rtype]
  · cases ts <;> simp [rtype]

lemma rtype_gno_dict {name : String} {disp : Option String} {bases : List BTag}
    {hasT : Bool} {ts : List PyType} {chk : Option (Val → Bool)} {ins : Val → Bool}
    (h1 : bases.contains .listB = false) (h2 : bases.contains .tupleB = false)
    (h3 : bases.contains .setB = false) (h4 : bases.contains .dictB = true) :
    rtype (get_null_object (.mk name disp bases hasT ts chk ins)) = .dictB := by
  rw [get_null_object.eq_def]
  simp only [h1, h2, h3, h4, Bool.false_eq_true, if_false, if_true]
  cases hasT
  · simp [rtype]
  · cases ts with
    | nil => simp [rtype]
    | cons vt rest =>
        cases hs : vt.name == "str" <;> cases hi : vt.name == "int" <;>
          cases hf : vt.name == "float" <;> simp [hs, hi, hf, rtype]

lemma gno_scalar {name : String} {disp : Option String} {bases : List BTag}
    {hasT : Bool} {ts : List PyType} {chk : Option (Val → Bool)} {ins : Val → Bool}
    (h1 : bases.contains .listB = false) (h2 : bases.contains .tupleB = false)
    (h3 : bases.contains .setB = false) (h4 : bases.contains .dictB = false) :
    get_null_object (.mk name disp bases hasT ts chk ins) =
      (builtinNull name).getD .vNone := by
  rw [get_null_object.eq_def]
  simp only [h1, h2, h3, h4, Bool.false_eq_true, if_false]
  cases builtinNull name <;> simp

/-- C3 amended: `isNullOfType(nullOf(D), D)` holds for builtin scalar
descriptors, for union and structural descriptors (their first base —
`object` or the `Attr__` base — accepts the absence-marker null), and for
every container/product descriptor shape whose first base is its container
kind and whose null derivation returns normally; it fails for refinement
(`Filter`) descriptors over scalar bases, whose derived null `None` the
first base rejects (see the counterexample), and for typed set descriptors
with an unhashable element null, such as `Set(List(Int))`, the null
derivation itself raises a `TypeError` instead of returning a value (third
conjunct). -/
theorem C3_null_roundtrip_amended :
    (∀ D : PyType, goodNullShape D = true →
      is_null_of_type (get_null_object D) D = true) ∧
    (∀ D1 D2 : PyType,
      is_null_of_type (get_null_object (UnionT D1 D2)) (UnionT D1 D2) = true) ∧
    gnoRaises (SetT (ListT pyIntC)) = true := by
  have main : ∀ D : PyType, goodNullShape D = true →
      is_null_of_type (get_null_object D) D = true := by
    intro D h
    obtain ⟨name, disp, bases, hasT, ts, chk, ins⟩ := D
    unfold goodNullShape at h
    rw [Bool.and_eq_true] at h
    obtain ⟨h, -⟩ := h
    unfold containerTagOf at h
    simp only [PyType.bases, PyType.name] at h
    unfold is_null_of_type
    simp only [PyType.bases, PyType.name]
    cases h1 : bases.contains .listB with
    | true =>
        simp only [h1, if_true] at h
        rw [Bool.and_eq_true] at h
        obtain ⟨hb, hh⟩ := h
        have hbn : builtinNull name = none := Option.isNone_iff_eq_none.mp hb
        simp only [hbn]
        rw [Bool.and_eq_true]
        refine ⟨pyEq_refl _, ?_⟩
        have hh2 : bases.headD .objB = .listB := by simpa using hh
        rw [hh2]
        simp [instTag, rtype_gno_list h1]
    | false =>
        cases h2 : bases.contains .tupleB with
        | true =>
            simp only [h1, h2, Bool.false_eq_true, if_false, if_true] at h
            rw [Bool.and_eq_true] at h
            obtain ⟨hb, hh⟩ := h
            have hbn : builtinNull name = none := Option.isNone_iff_eq_none.mp hb
            simp only [hbn]
            rw [Bool.and_eq_true]
            refine ⟨pyEq_refl _, ?_⟩
            have hh2 : bases.headD .objB = .tupleB := by simpa using hh
            rw [hh2]
            simp [instTag, rtype_gno_tuple h1 h2]
        | false =>
            cases h3 : bases.contains .setB with
            | true =>
                simp only [h1, h2, h3, Bool.false_eq_true, if_false, if_true] at h
                rw [Bool.and_eq_true] at h
                obtain ⟨hb, hh⟩ := h
                have hbn : builtinNull name = none := Option.isNone_iff_eq_none.mp hb
                simp only [hbn]
                rw [Bool.and_eq_true]
                refine ⟨pyEq_refl _, ?_⟩
                have hh2 : bases.headD .objB = .setB := by simpa using hh
                rw [hh2]
                simp [instTag, rtype_gno_set h1 h2 h3]
            | false =>
                cases h4 : bases.contains .dictB with
                | true =>
                    simp only [h1, h2, h3, h4, Bool.false_eq_true, if_false, if_true] at h
                    rw [Bool.and_eq_true] at h
                    obtain ⟨hb, hh⟩ := h
                    have hbn : builtinNull name = none := Option.isNone_iff_eq_none.mp hb
                    simp only [hbn]
                    rw [Bool.and_eq_true]
                    refine ⟨pyEq_refl _, ?_⟩
                    have hh2 : bases.headD .objB = .dictB := by simpa using hh
                    rw [hh2]
                    simp [instTag, rtype_gno_dict h1 h2 h3 h4]
                | false =>
                    simp only [h1, h2, h3, h4, Bool.false_eq_true, if_false] at h
                    rw [Bool.or_eq_true] at h
                    cases hbn : builtinNull name with
                    | some w =>
                        simp only [hbn]
                        rw [gno_scalar h1 h2 h3 h4, hbn, Option.getD_some]
                        exact pyEq_refl w
                    | none =>
                        rcases h with hleft | hobj
                        · rw [Bool.or_eq_true] at hleft
                          rcases hleft with hb | hattr
                          · rw [hbn] at hb; cases hb
                          · simp only [hbn]
                            rw [Bool.and_eq_true]
                            refine ⟨pyEq_refl _, ?_⟩
                            have hh2 : bases.headD .objB = .attrBaseB := by
                              simpa using hattr
                            rw [hh2]
                            simp [instTag]
                        · simp only [hbn]
                          rw [Bool.and_eq_true]
                          refine ⟨pyEq_refl _, ?_⟩
                          have hh2 : bases.headD .objB = .objB := by simpa using hobj
                          rw [hh2]
                          simp [instTag]
  refine ⟨main, ?_, ?_⟩
  · intro D1 D2
    refine main _ ?_
    have hr : gnoRaises (UnionT D1 D2) = false := by
      rw [gnoRaises.eq_def]
      rfl
    unfold goodNullShape
    rw [hr]
    rfl
  · simp [SetT, ListT, pyIntC, gnoRaises, get_null_object, builtinNull,
      pyHashable, pyHashableList]

/-- C3 counterexample: for the refinement descriptor `Pos = Filter(Int,
positive)`, `_get_null_object` yields Python `None` (no container base, not
a `_builtin_nulls` key), and `_is_null_of_type` then requires
`isinstance(None, int)` — so `isNullOfType(nullOf(Pos), Pos)` is false,
refuting the claim for every descriptor. -/
theorem C3_null_roundtrip_counterexample :
    get_null_object pyPos = .vNone ∧
    is_null_of_type (get_null_object pyPos) pyPos = false := by
  have h : get_null_object pyPos = .vNone := by
    rw [pyPos, get_null_object.eq_def]
    rfl
  refine ⟨h, ?_⟩
  rw [h]
  show is_null_of_type .vNone pyPos = false
  unfold is_null_of_type
  simp [pyPos, PyType.name, PyType.bases, builtinNull, instTag, rtype]

/-- Witness for C3 amended, at the product descriptor over (integer, text,
boolean) and at the union `Union(int, float)`. -/
theorem C3_null_roundtrip_amended_witness :
    goodNullShape (ProdT [pyIntC, pyStrC, pyBoolC]) = true ∧
    is_null_of_type (get_null_object (ProdT [pyIntC, pyStrC, pyBoolC]))
      (ProdT [pyIntC, pyStrC, pyBoolC]) = true ∧
    is_null_of_type (get_null_object (UnionT pyIntC pyFloatC))
      (UnionT pyIntC pyFloatC) = true := by
  have hgr : gnoRaises (ProdT [pyIntC, pyStrC, pyBoolC]) = false := by
    have hpr : (pyStartsWith "Prod" "Prod") = true := by decide
    simp [ProdT, pyIntC, pyStrC, pyBoolC, gnoRaises, gnoRaisesList, hpr]
  have hg : goodNullShape (ProdT [pyIntC, pyStrC, pyBoolC]) = true := by
    unfold goodNullShape
    rw [hgr]
    rfl
  exact ⟨hg, C3_null_roundtrip_amended.1 _ hg, C3_null_roundtrip_amended.2.1 pyIntC pyFloatC⟩
